import Mathlib

/-!
Verification of the Auto-Converter document generator (src/Auto-Converter.py).

The Python source is shallowly embedded: Python `str` values become Lean
`String`, Python dicts keyed by strings become association lists built and
read in insertion order, pandas data frames (read with `header=None`) become
row-major grids `List (List (Option String))` where `none` models a NaN
cell, and Word tables become lists of rows of cell texts.  Each definition
below is translated from the correspondingly named function of the source.

The Python string primitives used by the source (`str.strip`, `str.lower`,
`str.upper`, `str.split`, `str.join`, `str.replace`, the `in` substring
test) are re-implemented here by structural recursion over the character
list of a `String`, so that every definition evaluates on concrete input;
they cover the ASCII range, which is the range exercised by the source's
markers and placeholder names.
-/

namespace AutoConverter

/-- The character list of a string. -/
def chars (s : String) : List Char := s.data

/-- The string with the given character list. -/
def chStr (l : List Char) : String := String.mk l

/-- ASCII whitespace, as stripped by Python `str.strip()`. -/
def pyIsSpace (c : Char) : Bool :=
  c = ' ' || c = '\t' || c = '\n' || c = '\r' || c = Char.ofNat 11 || c = Char.ofNat 12

/-- Python `str.strip()`: remove leading and trailing whitespace. -/
def pyStrip (s : String) : String :=
  chStr (((chars s).dropWhile pyIsSpace).reverse.dropWhile pyIsSpace).reverse

/-- Lower-case one ASCII character. -/
def pyCharLower (c : Char) : Char :=
  if 65 ≤ c.toNat ∧ c.toNat ≤ 90 then Char.ofNat (c.toNat + 32) else c

/-- Upper-case one ASCII character. -/
def pyCharUpper (c : Char) : Char :=
  if 97 ≤ c.toNat ∧ c.toNat ≤ 122 then Char.ofNat (c.toNat - 32) else c

/-- Python `str.lower()` on ASCII text. -/
def pyLower (s : String) : String := chStr ((chars s).map pyCharLower)

/-- Python `str.upper()` on ASCII text. -/
def pyUpper (s : String) : String := chStr ((chars s).map pyCharUpper)

/-- Split a character list at every occurrence of the separator character. -/
def splitOnChar (sep : Char) : List Char → List (List Char)
  | [] => [[]]
  | c :: rest =>
    let r := splitOnChar sep rest
    if c = sep then [] :: r
    else
      match r with
      | [] => [[c]]
      | h :: t => (c :: h) :: t

/-- Python `str.split(sep)` for a one-character separator, as used by
`bus_info_needs.split(',')`. -/
def pySplit (sep : Char) (s : String) : List String :=
  (splitOnChar sep (chars s)).map chStr

/-- Python `sep.join(parts)`. -/
def pyJoin (sep : String) : List String → String
  | [] => ""
  | h :: t => t.foldl (fun acc x => acc ++ sep ++ x) h

/-- Whether `pat` occurs as a contiguous run inside the second list. -/
def occursIn (pat : List Char) : List Char → Bool
  | [] => pat.isEmpty
  | c :: rest => pat.isPrefixOf (c :: rest) || occursIn pat rest

/-- Python `pattern in text` substring test (`str.__contains__`). -/
def pyIn (pat s : String) : Bool :=
  occursIn (chars pat) (chars s)

/-- Python `data_row.get(key, '')` on a string-keyed, string-valued dict. -/
def pyGet (row : List (String × String)) (k : String) : String :=
  (row.lookup k).getD ""

/-- Python `key in data_row` on a dict modelled as an association list. -/
def pyHasKey (row : List (String × String)) (k : String) : Bool :=
  (row.lookup k).isSome

/-- The empty result built by `process_bus_info_needs_ranking` when the
`bus_info_needs` value is missing, empty, `'nan'` or `'na'`: every output
placeholder is mapped to the empty string. -/
def ranking_empty_result : List (String × String) :=
  ("bus_info_needs", "") :: ("bus_info_needs_rank", "") ::
    (List.range' 1 9).map (fun i => (s!"bus_info_needs_rank_reason{i}", ""))

/-- The item loop of `process_bus_info_needs_ranking`: each cleaned item is
kept in order, empty and `'na'` entries are dropped, and an item equal
(case-insensitively) to `'others'` or `'specify'` is replaced by the
`"Others, specify"` text, merged with the companion free-text value
`bus_info_needs_o` when that value is non-empty and not `'nan'`/`'na'`. -/
def process_items (bus_info_needs_o : String) : List String → List String
  | [] => []
  | item :: rest =>
    let item_clean := pyStrip item
    let tail := process_items bus_info_needs_o rest
    if item_clean ≠ "" ∧ pyLower item_clean ∉ ["na", ""] then
      (if pyLower item_clean ∈ ["others", "specify"] then
        (if bus_info_needs_o ≠ "" ∧ pyLower bus_info_needs_o ∉ ["nan", "na", ""] then
          s!"Others, specify: {bus_info_needs_o}"
        else
          "Others, specify")
      else
        item_clean) :: tail
    else
      tail

/-- Embedding of `process_bus_info_needs_ranking(data_row)`: splits the
comma-separated `bus_info_needs` value, cleans the items, joins the items
and their 1..N rank numbers with newlines, and fills the nine
`bus_info_needs_rank_reason{i}` slots (a caller-supplied reason when one is
present and not empty/`'nan'`/`'NA'`, otherwise the literal placeholder
token for slots within range, otherwise the empty string). -/
def process_bus_info_needs_ranking (data_row : List (String × String)) :
    List (String × String) :=
  let bus_info_needs := pyStrip (pyGet data_row "bus_info_needs")
  let bus_info_needs_o := pyStrip (pyGet data_row "bus_info_needs_o")
  if bus_info_needs = "" ∨ pyLower bus_info_needs ∈ ["nan", "na", ""] then
    ranking_empty_result
  else
    let items := ((pySplit ',' bus_info_needs).map pyStrip).filter (fun s => s ≠ "")
    let processed_items := process_items bus_info_needs_o items
    let rank_numbers := (List.range' 1 processed_items.length).map toString
    ("bus_info_needs", pyJoin "\n" processed_items) ::
    ("bus_info_needs_rank", pyJoin "\n" rank_numbers) ::
    (List.range' 1 9).map (fun i =>
      let reason_key := s!"bus_info_needs_rank_reason{i}"
      (reason_key,
        if i ≤ processed_items.length then
          match data_row.lookup reason_key with
          | some v =>
            if pyStrip v ∉ ["", "nan", "NA"] then v
            else "\x7b" ++ reason_key ++ "\x7d"
          | none => "\x7b" ++ reason_key ++ "\x7d"
        else ""))

/-! ## Word tables

A Word table is modelled as the list of its rows, each row being the list
of its cell texts.  `table.add_row()` appends a row whose number of cells
is the table's column count `ncols`; an assignment guarded by
`len(cells) > i` becomes `List.set`, which is the identity when the index
is out of range. -/

/-- The row-removal loop shared by the table population functions:
`while len(table.rows) > header_rows: table._tbl.remove(table.rows[-1]._tr)`. -/
def remove_trailing_rows (header_rows : Nat) (rows : List α) : List α :=
  if header_rows < rows.length then remove_trailing_rows header_rows rows.dropLast
  else rows
termination_by rows.length
decreasing_by
  simp only [List.length_dropLast]
  omega

/-- One data row added by `populate_bus_info_needs_table`: item text, rank
number, and the matching reason value when the data row carries one that is
not empty/`'nan'`/`'NA'`. -/
def bus_info_needs_row (ncols : Nat) (data_row : List (String × String))
    (i : Nat) (item : String) : List String :=
  (((List.replicate ncols "").set 0 (pyStrip item)).set 1 (toString i)).set 2
    (match data_row.lookup s!"bus_info_needs_rank_reason{i}" with
      | some v => if pyStrip v ∉ ["", "nan", "NA"] then v else ""
      | none => "")

/-- Embedding of `populate_bus_info_needs_table(table, data_row)`: when the
ranked item list is empty the function returns at once; otherwise it keeps
the two header rows, removes every later row, and appends one row per
non-empty ranked item. -/
def populate_bus_info_needs_table (ncols : Nat) (table : List (List String))
    (data_row : List (String × String)) : List (List String) :=
  let ranked_data := process_bus_info_needs_ranking data_row
  let items_text := pyGet ranked_data "bus_info_needs"
  if items_text = "" then table
  else
    let items := pySplit '\n' items_text
    remove_trailing_rows 2 table ++
      (items.enumFrom 1).filterMap (fun p =>
        if pyStrip p.2 ≠ "" then some (bus_info_needs_row ncols data_row p.1 p.2)
        else none)

/-- One data row added by `populate_hh_member_table`. -/
def hh_member_row (ncols : Nat) (idx : Nat)
    (row_data : List (String × String)) : List String :=
  let fname := pyGet row_data "hhcomp_hhmmbr_fname"
  let mname := pyGet row_data "hhcomp_hhmmbr_mname"
  let lname := pyGet row_data "hhcomp_hhmmbr_lname"
  let full_name := pyStrip (fname ++ " " ++ mname ++ " " ++ lname)
  let religion := pyGet row_data "hhcomp_hhmmbr_relg"
  let religion_other := pyGet row_data "hhcomp_hhmmbr_relg_o"
  ((((((((((List.replicate ncols "").set 0 (toString idx)).set 1
    full_name).set 2
    (pyGet row_data "hhcomp_hhmmbr_hhreltn")).set 3
    (pyGet row_data "hhcomp_hhmmbr_hhage")).set 4
    (pyGet row_data "hhcomp_hhmmbr_hhsex")).set 5
    (pyGet row_data "hhcomp_hhmmbr_status")).set 6
    (if religion_other ≠ "" ∧ pyLower (pyStrip religion_other) ∉ ["", "nan"] then
      religion ++ " Pls. Specify: " ++ religion_other
    else religion)).set 7
    (pyGet row_data "hhcomp_hhmmbr_brtplc")).set 8
    (pyGet row_data "hhcomp_hhmmbr_educ")).set 9
    (pyGet row_data "hhcomp_hhmmbr_ethn")

/-- Embedding of `populate_hh_member_table(table, additional_rows)`: removes
every row beyond the first two, then appends one row per auxiliary record,
numbered from 1. -/
def populate_hh_member_table (ncols : Nat) (table : List (List String))
    (additional_rows : List (List (String × String))) : List (List String) :=
  remove_trailing_rows 2 table ++
    (additional_rows.enumFrom 1).map (fun p => hh_member_row ncols p.1 p.2)

/-- One data row added by `populate_savings_table`. -/
def savings_row (ncols : Nat) (idx : Nat)
    (row_data : List (String × String)) : List String :=
  let savings := pyGet row_data "hhcomp_hhmmbr_savings"
  let savings_o := pyGet row_data "hhcomp_hhmmbr_savings_o"
  let org := pyGet row_data "hhcomp_hhmmbr_org"
  let org_o := pyGet row_data "hhcomp_hhmmbr_org_o"
  (((((((List.replicate ncols "").set 0 (toString idx)).set 1
    (pyGet row_data "hhcomp_hhmmbr_ethn")).set 2
    (if savings_o ≠ "" ∧ pyLower (pyStrip savings_o) ∉ ["", "nan"] then
      savings ++ " Pls. Specify " ++ savings_o
    else savings)).set 3
    (pyGet row_data "hhcomp_hhmmbr_phone")).set 4
    (if org_o ≠ "" ∧ pyLower (pyStrip org_o) ∉ ["", "nan"] then
      org ++ " Pls. Specify " ++ org_o
    else org)).set 5
    (pyGet row_data "hhcomp_hhmmbr_org_mem")).set 6
    (pyGet row_data "hhcomp_hhmmbr_disability")

/-- Embedding of `populate_savings_table(table, additional_rows)`: removes
every row beyond the first one, then appends one row per auxiliary record,
numbered from 1. -/
def populate_savings_table (ncols : Nat) (table : List (List String))
    (additional_rows : List (List (String × String))) : List (List String) :=
  remove_trailing_rows 1 table ++
    (additional_rows.enumFrom 1).map (fun p => savings_row ncols p.1 p.2)

/-! ## Column mapping -/

/-- A pandas data frame read with `header=None`: rows of cells, a `none`
cell modelling NaN. -/
abbrev Grid := List (List (Option String))

/-- Cell access `df.iloc[r, c]`, `none` when the position is NaN (or out of range). -/
def cellAt (df : Grid) (r c : Nat) : Option String :=
  ((df[r]?.getD [])[c]?).join

/-- The cell test of `find_column_mapping`: the cell is not NaN and its
trimmed text equals the placeholder case-insensitively
(`str(cell_value).strip()`, compared lower-cased). -/
def cell_matches (cell : Option String) (placeholder : String) : Bool :=
  match cell with
  | some v => pyLower (pyStrip v) == pyLower placeholder
  | none => false

/-- The double scan loop of `find_column_mapping` for one placeholder:
rows `0..min 4 len - 1` outermost, columns left to right, stopping at the
first matching cell. -/
def find_placeholder_column (ncols : Nat) (df : Grid) (p : String) : Option Nat :=
  (List.range (min 4 df.length)).findSome? (fun r =>
    (List.range ncols).find? (fun c => cell_matches (cellAt df r c) p))

/-- Embedding of `find_column_mapping(df, placeholders)`: one entry per
placeholder that matched some cell in the first four rows; placeholders
with no match are omitted. -/
def find_column_mapping (ncols : Nat) (df : Grid) (placeholders : List String) :
    List (String × Nat) :=
  placeholders.filterMap (fun p =>
    (find_placeholder_column ncols df p).map (fun c => (p, c)))

/-- Spec-side definition for C4, written from the specification's words:
enumerate all (row, column) positions of the first four rows in row-major
order (top-to-bottom, left-to-right within a row) and take the column of
the first cell that matches the placeholder. -/
def first_match_row_major (ncols : Nat) (df : Grid) (p : String) : Option Nat :=
  (((List.range (min 4 df.length)).flatMap (fun r =>
      (List.range ncols).map (fun c => (r, c)))).find?
    (fun rc => cell_matches (cellAt df rc.1 rc.2) p)).map (fun rc => rc.2)

/-- Finding in a list of pairs with a fixed first component. -/
theorem find?_map_pair (r : Nat) (g : Nat → Nat → Bool) (cols : List Nat) :
    (cols.map (fun c => (r, c))).find? (fun rc => g rc.1 rc.2)
      = (cols.find? (fun c => g r c)).map (fun c => (r, c)) := by
  induction cols with
  | nil => rfl
  | cons c cs ih =>
    by_cases h : g r c <;> simp [List.find?_cons, h, ih]

/-- The break-out double loop equals the first match over the row-major
position list. -/
theorem findSome?_eq_find_row_major (g : Nat → Nat → Bool)
    (rows cols : List Nat) :
    rows.findSome? (fun r => cols.find? (g r))
      = ((rows.flatMap (fun r => cols.map (fun c => (r, c)))).find?
          (fun rc => g rc.1 rc.2)).map (fun rc => rc.2) := by
  induction rows with
  | nil => rfl
  | cons r rest ih =>
    rw [List.findSome?_cons, List.flatMap_cons, List.find?_append, find?_map_pair]
    cases hfind : cols.find? (g r) with
    | none => simpa [hfind] using ih
    | some c => simp [hfind]

/-- Placeholders outside the scanned list have no mapping entry. -/
theorem lookup_find_column_mapping_not_mem (ncols : Nat) (df : Grid)
    (phs : List String) (p : String) (hp : p ∉ phs) :
    (find_column_mapping ncols df phs).lookup p = none := by
  induction phs with
  | nil => rfl
  | cons q rest ih =>
    have hpq : (p == q) = false :=
      beq_false_of_ne (fun h => hp (h ▸ List.mem_cons_self q rest))
    have hrest : p ∉ rest := fun h => hp (List.mem_cons_of_mem q h)
    simp only [find_column_mapping, List.filterMap_cons] at ih ⊢
    cases find_placeholder_column ncols df q with
    | none => exact ih hrest
    | some c => simpa [List.lookup, hpq] using ih hrest

/-! ## Final placeholder sweep

`clear_all_remaining_placeholders_optimized` substitutes the empty string
for every match of the compiled pattern `\x5c{[^}]+\x5c}` in every paragraph of
the document, recursing through tables, their rows, their cells, and the
tables nested inside cells.  The scan below mirrors `re.sub`: at each
position the pattern either matches — an opening brace, a maximal non-empty
run of non-`'}'` characters, a closing brace — and the match is dropped
with scanning resuming after it, or the character is kept and scanning
moves one character right. -/

/-- The character class `[^}]` of the placeholder pattern. -/
def notRBrace (c : Char) : Bool := c != '}'

/-- The substitution `re.sub(r'\x5c{[^}]+\x5c}', '', text)` on the character list of a
paragraph's text. -/
def clearText : List Char → List Char
  | [] => []
  | c :: rest =>
    if c = '{' ∧ rest.takeWhile notRBrace ≠ [] ∧ rest.dropWhile notRBrace ≠ [] then
      clearText (rest.dropWhile notRBrace).tail
    else c :: clearText rest
termination_by l => l.length
decreasing_by
  · have h1 : (rest.dropWhile notRBrace).length ≤ rest.length :=
      (List.dropWhile_sublist _).length_le
    have h2 : (rest.dropWhile notRBrace).tail.length
        ≤ (rest.dropWhile notRBrace).length := by
      cases rest.dropWhile notRBrace <;> simp
    simp only [List.length_cons]
    omega
  · simp only [List.length_cons]
    omega

/-- Whether some position of the list starts a match of the placeholder
pattern: an opening brace followed by at least one non-`'}'` character and,
later, a closing brace. -/
def containsToken : List Char → Bool
  | [] => false
  | c :: rest =>
    (c == '{' && !(rest.takeWhile notRBrace).isEmpty
      && !(rest.dropWhile notRBrace).isEmpty)
    || containsToken rest

/-- A `\x7b...\x7d` token in the sense of the placeholder pattern: an opening
brace, a non-empty brace-free name, and a closing brace, somewhere in the
text. -/
def HasToken (l : List Char) : Prop :=
  ∃ pre xs post, l = pre ++ '{' :: (xs ++ '}' :: post) ∧ xs ≠ [] ∧ '}' ∉ xs

/-- The first character surviving `dropWhile` fails the predicate. -/
theorem dropWhile_head_false (p : Char → Bool) :
    ∀ (l : List Char) (c : Char) (t : List Char),
      l.dropWhile p = c :: t → p c = false := by
  intro l
  induction l with
  | nil => intro c t h; cases h
  | cons a as ih =>
    intro c t h
    by_cases ha : p a = true
    · rw [List.dropWhile_cons, if_pos ha] at h
      exact ih c t h
    · rw [List.dropWhile_cons, if_neg ha] at h
      injection h with h1 _
      rw [← h1]
      simpa using ha

/-- A list with an empty `takeWhile` is empty or starts with a failing
character. -/
theorem takeWhile_eq_nil_cases (p : Char → Bool) (l : List Char)
    (h : l.takeWhile p = []) :
    l = [] ∨ ∃ c t, l = c :: t ∧ p c = false := by
  cases l with
  | nil => exact Or.inl rfl
  | cons c t =>
    refine Or.inr ⟨c, t, rfl, ?_⟩
    by_cases hc : p c = true
    · rw [List.takeWhile_cons, if_pos hc] at h
      cases h
    · simpa using hc

/-- The function `takeWhile` passes over a prefix whose members all satisfy `p`. -/
theorem takeWhile_append_passed (p : Char → Bool) (xs ys : List Char)
    (h : ∀ x ∈ xs, p x = true) :
    (xs ++ ys).takeWhile p = xs ++ ys.takeWhile p := by
  induction xs with
  | nil => simp
  | cons a t ih =>
    have ha : p a = true := h a (List.mem_cons_self a t)
    rw [List.cons_append, List.takeWhile_cons, if_pos ha, List.cons_append,
      ih (fun x hx => h x (List.mem_cons_of_mem a hx))]

/-- The function `dropWhile` passes over a prefix whose members all satisfy `p`. -/
theorem dropWhile_append_passed (p : Char → Bool) (xs ys : List Char)
    (h : ∀ x ∈ xs, p x = true) :
    (xs ++ ys).dropWhile p = ys.dropWhile p := by
  induction xs with
  | nil => simp
  | cons a t ih =>
    have ha : p a = true := h a (List.mem_cons_self a t)
    rw [List.cons_append, List.dropWhile_cons, if_pos ha,
      ih (fun x hx => h x (List.mem_cons_of_mem a hx))]

/-- Every character of the cleared text comes from the original text. -/
theorem mem_clearText : ∀ (n : Nat) (l : List Char), l.length ≤ n →
    ∀ x, x ∈ clearText l → x ∈ l := by
  intro n
  induction n with
  | zero =>
    intro l h x hx
    have : l = [] := List.eq_nil_of_length_eq_zero (Nat.le_zero.mp h)
    subst this
    rw [clearText] at hx
    cases hx
  | succ n ih =>
    intro l h x hx
    cases l with
    | nil => rw [clearText] at hx; cases hx
    | cons c rest =>
      rw [clearText] at hx
      by_cases hcond : c = '{' ∧ rest.takeWhile notRBrace ≠ []
          ∧ rest.dropWhile notRBrace ≠ []
      · rw [if_pos hcond] at hx
        have hlen : (rest.dropWhile notRBrace).tail.length ≤ n := by
          have h1 : (rest.dropWhile notRBrace).length ≤ rest.length :=
            (List.dropWhile_sublist _).length_le
          have h2 : (rest.dropWhile notRBrace).tail.length
              ≤ (rest.dropWhile notRBrace).length := by
            cases rest.dropWhile notRBrace <;> simp
          simp only [List.length_cons] at h
          omega
        have hx1 : x ∈ (rest.dropWhile notRBrace).tail := ih _ hlen x hx
        have hx2 : x ∈ rest.dropWhile notRBrace :=
          (List.tail_sublist _).mem hx1
        exact List.mem_cons_of_mem c ((List.dropWhile_sublist _).mem hx2)
      · rw [if_neg hcond] at hx
        rcases List.mem_cons.mp hx with hx | hx
        · exact hx ▸ List.mem_cons_self c rest
        · exact List.mem_cons_of_mem c
            (ih rest (by simp only [List.length_cons] at h; omega) x hx)

/-- After the sweep, no position of the text starts a placeholder match. -/
theorem containsToken_clearText_aux : ∀ (n : Nat) (l : List Char),
    l.length ≤ n → containsToken (clearText l) = false := by
  intro n
  induction n with
  | zero =>
    intro l h
    have : l = [] := List.eq_nil_of_length_eq_zero (Nat.le_zero.mp h)
    subst this
    rw [clearText]
    rfl
  | succ n ih =>
    intro l h
    cases l with
    | nil =>
      rw [clearText]
      rfl
    | cons c rest =>
      have hrest : rest.length ≤ n := by
        simp only [List.length_cons] at h; omega
      rw [clearText]
      by_cases hcond : c = '{' ∧ rest.takeWhile notRBrace ≠ []
          ∧ rest.dropWhile notRBrace ≠ []
      · rw [if_pos hcond]
        have hlen : (rest.dropWhile notRBrace).tail.length ≤ n := by
          have h1 : (rest.dropWhile notRBrace).length ≤ rest.length :=
            (List.dropWhile_sublist _).length_le
          have h2 : (rest.dropWhile notRBrace).tail.length
              ≤ (rest.dropWhile notRBrace).length := by
            cases rest.dropWhile notRBrace <;> simp
          omega
        exact ih _ hlen
      · rw [if_neg hcond, containsToken, ih rest hrest, Bool.or_false]
        push_neg at hcond
        by_cases hc : c = '{'
        · by_cases htw : rest.takeWhile notRBrace = []
          · rcases takeWhile_eq_nil_cases notRBrace rest htw with hnil | ⟨d, t, hdt, hd⟩
            · subst hnil
              rw [clearText]
              simp
            · have hd' : d = '}' := by
                simpa [notRBrace] using hd
              subst hdt hd'
              rw [clearText, if_neg (by simp)]
              simp [List.takeWhile_cons, notRBrace]
          · have hdw : rest.dropWhile notRBrace = [] := hcond hc htw
            have hall : ∀ x ∈ rest, notRBrace x = true :=
              List.dropWhile_eq_nil_iff.mp hdw
            have hall' : ∀ x ∈ clearText rest, notRBrace x = true :=
              fun x hx => hall x (mem_clearText rest.length rest le_rfl x hx)
            have : (clearText rest).dropWhile notRBrace = [] :=
              List.dropWhile_eq_nil_iff.mpr hall'
            simp [this]
        · simp [hc]

/-- The sweep leaves no placeholder match, stated for any text. -/
theorem containsToken_clearText (l : List Char) :
    containsToken (clearText l) = false :=
  containsToken_clearText_aux l.length l le_rfl

/-- A text holding a `\x7b...\x7d` token makes `containsToken` true. -/
theorem containsToken_of_hasToken (l : List Char) (h : HasToken l) :
    containsToken l = true := by
  obtain ⟨pre, xs, post, rfl, hxs, hmem⟩ := h
  induction pre with
  | nil =>
    rw [List.nil_append, containsToken]
    have hall : ∀ x ∈ xs, notRBrace x = true := by
      intro x hx
      simp only [notRBrace, bne_iff_ne, ne_eq, decide_eq_true_eq]
      exact fun hxeq => hmem (hxeq ▸ hx)
    have htw : (xs ++ '}' :: post).takeWhile notRBrace = xs := by
      rw [takeWhile_append_passed notRBrace xs _ hall, List.takeWhile_cons,
        if_neg (by simp [notRBrace]), List.append_nil]
    have hdw : (xs ++ '}' :: post).dropWhile notRBrace = '}' :: post := by
      rw [dropWhile_append_passed notRBrace xs _ hall, List.dropWhile_cons,
        if_neg (by simp [notRBrace])]
    rw [htw, hdw]
    simp [hxs]
  | cons a pre' ih =>
    rw [List.cons_append, containsToken, ih, Bool.or_true]

/-! ### The document tree

python-docx structure as walked by the source: a document holds paragraphs
and tables; a table holds rows; a row holds cells; a cell holds paragraphs
and nested tables, to arbitrary depth.  A paragraph is its text's character
list. -/

mutual

inductive Table where
  | mk : Rows → Table

inductive Rows where
  | nil : Rows
  | cons : Cells → Rows → Rows

inductive Cells where
  | nil : Cells
  | cons : Cell → Cells → Cells

inductive Cell where
  | mk : List (List Char) → Tables → Cell

inductive Tables where
  | nil : Tables
  | cons : Table → Tables → Tables

end

/-- A document: top-level paragraphs and top-level tables. -/
structure Doc where
  paragraphs : List (List Char)
  tables : Tables

mutual

/-- One table of `_clear_tables_placeholders_recursive_optimized`. -/
def clearTable : Table → Table
  | .mk rows => .mk (clearRows rows)

/-- The row loop of the recursive clearing. -/
def clearRows : Rows → Rows
  | .nil => .nil
  | .cons cells rest => .cons (clearCells cells) (clearRows rest)

/-- The cell loop of the recursive clearing. -/
def clearCells : Cells → Cells
  | .nil => .nil
  | .cons c rest => .cons (clearCell c) (clearCells rest)

/-- Clearing one cell: its paragraphs are swept, its nested tables are
cleared recursively. -/
def clearCell : Cell → Cell
  | .mk paras tabs => .mk (paras.map clearText) (clearTables tabs)

/-- The table-list loop of the recursive clearing. -/
def clearTables : Tables → Tables
  | .nil => .nil
  | .cons t rest => .cons (clearTable t) (clearTables rest)

end

/-- Embedding of `clear_all_remaining_placeholders_optimized(doc)`: sweep
the top-level paragraphs, then recurse through all tables. -/
def clear_all_remaining_placeholders (d : Doc) : Doc :=
  ⟨d.paragraphs.map clearText, clearTables d.tables⟩

mutual

/-- All paragraph texts inside a table, at any nesting depth. -/
def tableParaTexts : Table → List (List Char)
  | .mk rows => rowsParaTexts rows

/-- All paragraph texts inside a list of rows. -/
def rowsParaTexts : Rows → List (List Char)
  | .nil => []
  | .cons cells rest => cellsParaTexts cells ++ rowsParaTexts rest

/-- All paragraph texts inside a list of cells. -/
def cellsParaTexts : Cells → List (List Char)
  | .nil => []
  | .cons c rest => cellParaTexts c ++ cellsParaTexts rest

/-- All paragraph texts inside a cell, nested tables included. -/
def cellParaTexts : Cell → List (List Char)
  | .mk paras tabs => paras ++ tablesParaTexts tabs

/-- All paragraph texts inside a list of tables. -/
def tablesParaTexts : Tables → List (List Char)
  | .nil => []
  | .cons t rest => tableParaTexts t ++ tablesParaTexts rest

end

/-- All paragraph texts of a document, nested tables included. -/
def docParaTexts (d : Doc) : List (List Char) :=
  d.paragraphs ++ tablesParaTexts d.tables

mutual

theorem clearTable_no_token : ∀ (t : Table) (s : List Char),
    s ∈ tableParaTexts (clearTable t) → containsToken s = false
  | .mk rows => clearRows_no_token rows

theorem clearRows_no_token : ∀ (r : Rows) (s : List Char),
    s ∈ rowsParaTexts (clearRows r) → containsToken s = false
  | .nil => by
    intro s h
    rw [clearRows, rowsParaTexts] at h
    cases h
  | .cons cells rest => by
    intro s h
    rw [clearRows, rowsParaTexts] at h
    rcases List.mem_append.mp h with h | h
    · exact clearCells_no_token cells s h
    · exact clearRows_no_token rest s h

theorem clearCells_no_token : ∀ (cs : Cells) (s : List Char),
    s ∈ cellsParaTexts (clearCells cs) → containsToken s = false
  | .nil => by
    intro s h
    rw [clearCells, cellsParaTexts] at h
    cases h
  | .cons c rest => by
    intro s h
    rw [clearCells, cellsParaTexts] at h
    rcases List.mem_append.mp h with h | h
    · exact clearCell_no_token c s h
    · exact clearCells_no_token rest s h

theorem clearCell_no_token : ∀ (c : Cell) (s : List Char),
    s ∈ cellParaTexts (clearCell c) → containsToken s = false
  | .mk paras tabs => by
    intro s h
    rw [clearCell, cellParaTexts] at h
    rcases List.mem_append.mp h with h | h
    · obtain ⟨t, _, rfl⟩ := List.mem_map.mp h
      exact containsToken_clearText t
    · exact clearTables_no_token tabs s h

theorem clearTables_no_token : ∀ (ts : Tables) (s : List Char),
    s ∈ tablesParaTexts (clearTables ts) → containsToken s = false
  | .nil => by
    intro s h
    rw [clearTables, tablesParaTexts] at h
    cases h
  | .cons t rest => by
    intro s h
    rw [clearTables, tablesParaTexts] at h
    rcases List.mem_append.mp h with h | h
    · exact clearTable_no_token t s h
    · exact clearTables_no_token rest s h

end

/-! ## Image substitution -/

/-- Replace, left to right and without overlap, every occurrence of `pat`
by `rep`; `fuel` bounds the recursion and is taken as the text length, so
it never runs out (each step consumes at least one character).  An empty
pattern is returned unchanged (the source only ever replaces non-empty
`\x7bkey\x7d` tokens). -/
def replaceChars (pat rep : List Char) : Nat → List Char → List Char
  | _, [] => []
  | 0, l => l
  | fuel + 1, c :: rest =>
    if pat.isPrefixOf (c :: rest) ∧ pat ≠ [] then
      rep ++ replaceChars pat rep fuel ((c :: rest).drop pat.length)
    else
      c :: replaceChars pat rep fuel rest

/-- Python `text.replace(pat, rep)`. -/
def pyReplace (pat rep s : String) : String :=
  chStr (replaceChars (chars pat) (chars rep) (chars s).length (chars s))

/-- The plain text substitution loop of `replace_placeholders_optimized`:
for every `(key, value)` of the data row, in insertion order, every
occurrence of `\x7bkey\x7d` is replaced by the value. -/
def substitute_all (data_row : List (String × String)) (text : String) : String :=
  data_row.foldl (fun t kv => pyReplace ("\x7b" ++ kv.1 ++ "\x7d") kv.2 t) text

/-- The extension sequence tried by the image branch. -/
def image_extensions : List String :=
  [".png", ".jpg", ".jpeg", ".gif", ".bmp", ".tiff", ".webp"]

/-- Index of the last `'.'` of a character list, if any. -/
def lastDotIdx : List Char → Option Nat
  | [] => none
  | c :: rest =>
    match lastDotIdx rest with
    | some i => some (i + 1)
    | none => if c = '.' then some 0 else none

/-- The base part `os.path.splitext(name)[0]` for a plain file name with no directory
separators: cut at the last dot, unless every character before that dot is
itself a dot (a leading-dots name has no extension). -/
def splitext_base (s : String) : String :=
  match lastDotIdx (chars s) with
  | none => s
  | some i =>
    if ((chars s).take i).any (fun c => c ≠ '.') then chStr ((chars s).take i)
    else s

/-- The file names tried by the image branch, in loop order: the row's
value verbatim (the empty pseudo-extension), then the value with its
extension stripped and each extension of `image_extensions` appended. -/
def candidate_filenames (image_filename : String) : List String :=
  ("" :: image_extensions).map (fun ext =>
    if ext = "" then image_filename else splitext_base image_filename ++ ext)

/-- The candidate loop: the first candidate that exists on disk wins
(`replace_image_in_paragraph` returns `True` whenever the paragraph holds
the `\x7bresp_pix\x7d` token, which the enclosing branch has checked, so the
loop breaks at the first existing file). -/
def try_image_candidates (exists_on_disk : String → Bool) : List String → Option String
  | [] => none
  | f :: rest =>
    if exists_on_disk f then some f else try_image_candidates exists_on_disk rest

/-- Outcome of handling one paragraph in `replace_placeholders_optimized`:
either the paragraph is rebuilt around an inserted image, or it gets plain
text substitution. -/
inductive ParaOutcome where
  | image (path : String)
  | text (newText : String)
deriving DecidableEq

/-- The per-paragraph branch of `replace_placeholders_optimized`: the image
path is taken only when an image folder is configured, the row has a
`resp_pix` value, and the paragraph holds the `\x7bresp_pix\x7d` token; a
missing file on every candidate name, or an empty/`'nan'` image value,
falls back to plain text substitution. -/
def handle_paragraph (folder_configured : Bool)
    (exists_on_disk : String → Bool) (data_row : List (String × String))
    (original_text : String) : ParaOutcome :=
  if folder_configured && pyHasKey data_row "resp_pix"
      && pyIn "\x7bresp_pix\x7d" original_text then
    let image_filename := pyStrip (pyGet data_row "resp_pix")
    if image_filename ≠ "" ∧ pyLower image_filename ≠ "nan" then
      match try_image_candidates exists_on_disk
          (candidate_filenames image_filename) with
      | some f => ParaOutcome.image f
      | none => ParaOutcome.text (substitute_all data_row original_text)
    else ParaOutcome.text (substitute_all data_row original_text)
  else ParaOutcome.text (substitute_all data_row original_text)

/-- The candidate loop takes the first existing candidate. -/
theorem try_image_candidates_eq_find? (exists_on_disk : String → Bool)
    (l : List String) :
    try_image_candidates exists_on_disk l = l.find? exists_on_disk := by
  induction l with
  | nil => rfl
  | cons f rest ih =>
    by_cases h : exists_on_disk f <;>
      simp [try_image_candidates, List.find?_cons, h, ih]

/-! ## Conversion worker -/

/-- The KEY-column scan of `conversion_worker`: when the frame has more
than three rows, the first cell of row index 3 whose trimmed, upper-cased
text is `"KEY"` gives the key column. -/
def find_key_column (df : Grid) : Option Nat :=
  if 3 < df.length then
    (((df[3]?.getD []).enum.find? (fun ic =>
      match ic.2 with
      | some v => pyUpper (pyStrip v) == "KEY"
      | none => false)).map (fun ic => ic.1))
  else none

/-- The final success message of `conversion_worker`, built from
`total_rows` and the archive path. -/
def success_message (total_rows : Nat) (zip_path : String) : String :=
  s!"🎉 Generated {total_rows} documents in ZIP file:\n{zip_path}"

/-- The result-collection loop of `conversion_worker`: each completed job
yields `(result, error)`; a non-`None` result is appended to
`generated_files`, an error is only logged. -/
def collect_generated_files
    (results : List (Option String × Option String)) : List String :=
  results.foldl (fun gen r =>
    match r.1 with
    | some f => gen ++ [f]
    | none => gen) []

/-- The observable outcome of one `conversion_worker` run. -/
structure WorkerRun where
  errorMsg : Option String
  tempDirCreated : Bool
  results : List (Option String × Option String)
  generatedFiles : List String
  archiveEntries : List String
  successMessage : Option String
deriving DecidableEq

/-- Embedding of the `conversion_worker` body: the four configuration
checks run in source order before the temp directory is created and before
any row job is scheduled; on the success path every data row (rows 4
onward, enumerated from 0) is rendered by `render` (the per-row renderer,
closed over the column mapping and key column in the source), every
non-`None` result is collected, the archive receives exactly the collected
files, and the success message is built from the total row count. -/
def conversion_worker_model (df : Grid) (ncols : Nat)
    (placeholders : List String)
    (render : Nat × List (Option String) → Option String × Option String)
    (zip_path : String) : WorkerRun :=
  if placeholders = [] then
    ⟨some "No placeholders found in template", false, [], [], [], none⟩
  else if find_column_mapping ncols df placeholders = [] then
    ⟨some "No matching columns found between template and Excel headers in rows 1-3",
      false, [], [], [], none⟩
  else
    match find_key_column df with
    | none =>
      ⟨some "KEY column not found in row 4 of main Excel file",
        false, [], [], [], none⟩
    | some _key_column =>
      if df.drop 4 = [] then
        ⟨some "No data found starting from row 5", false, [], [], [], none⟩
      else
        let results := (df.drop 4).enum.map render
        let generated := collect_generated_files results
        ⟨none, true, results, generated, generated,
          some (success_message (df.drop 4).length zip_path)⟩

/-! ## Auxiliary index -/

/-- An auxiliary record: header label of row 3 mapped to the cell value. -/
abbrev Record := List (String × String)

/-- The PARENT_KEY column scan of `_preload_additional_data`: when an
auxiliary frame has more than three rows, the first cell of row index 3
whose trimmed, upper-cased text is `"PARENT_KEY"` gives the key column. -/
def find_parent_key_column (df : Grid) : Option Nat :=
  if 3 < df.length then
    (((df[3]?.getD []).enum.find? (fun ic =>
      match ic.2 with
      | some v => pyUpper (pyStrip v) == "PARENT_KEY"
      | none => false)).map (fun ic => ic.1))
  else none

/-- Python dict assignment `d[k] = v`: overwrite in place when the key is
present, append a new entry otherwise. -/
def dict_insert (d : Record) (k v : String) : Record :=
  if (d.lookup k).isSome then
    d.map (fun kv => if kv.1 = k then (k, v) else kv)
  else d ++ [(k, v)]

/-- One auxiliary record, built from the headers of row 3: every non-NaN
header, trimmed, is mapped to that column's cell value (empty for NaN),
in column order. -/
def build_row_data (headers row : List (Option String)) : Record :=
  headers.enum.foldl (fun d ih =>
    match ih.2 with
    | some h => dict_insert d (pyStrip h) (((row[ih.1]?).join).getD "")
    | none => d) []

/-- The record stream of one auxiliary file: one `(trimmed key, record)`
pair per row from index 4 on whose PARENT_KEY cell is not NaN, in row
order; a file without a PARENT_KEY marker contributes nothing. -/
def file_records (df : Grid) : List (String × Record) :=
  match find_parent_key_column df with
  | none => []
  | some pk =>
    (df.drop 4).filterMap (fun row =>
      match (row[pk]?).join with
      | some v => some (pyStrip v, build_row_data (df[3]?.getD []) row)
      | none => none)

/-- Appending one record to the shared cache under its key: extend the
key's list in place, or create the entry on first sight of the key. -/
def cache_append (cache : List (String × List Record)) (k : String)
    (r : Record) : List (String × List Record) :=
  if (cache.lookup k).isSome then
    cache.map (fun e => if e.1 = k then (e.1, e.2 ++ [r]) else e)
  else cache ++ [(k, [r])]

/-- Embedding of `_preload_additional_data`: a single cache dict shared by
all selected auxiliary files, filled file by file in selection order and,
within a file, row by row. -/
def preload_additional_data (files : List Grid) : List (String × List Record) :=
  files.foldl (fun cache df =>
    (file_records df).foldl (fun c kr => cache_append c kr.1 kr.2) cache) []

/-- Embedding of `get_additional_data_for_key_optimized(key_value)`:
`self._additional_data_cache.get(str(key_value).strip(), [])`. -/
def get_additional_data_for_key (cache : List (String × List Record))
    (key_value : String) : List Record :=
  (cache.lookup (pyStrip key_value)).getD []

/-- Overwriting the list stored under `k` commutes with `lookup`. -/
theorem lookup_map_update (cache : List (String × List Record)) (k : String)
    (r : Record) (q : String) :
    (cache.map (fun e => if e.1 = k then (e.1, e.2 ++ [r]) else e)).lookup q
      = (cache.lookup q).map (fun v => if q = k then v ++ [r] else v) := by
  induction cache with
  | nil => rfl
  | cons e rest ih =>
    obtain ⟨a, b⟩ := e
    by_cases hk : a = k
    · subst hk
      by_cases hq : q = a
      · subst hq
        simp [List.lookup_cons, ih]
      · simp [List.lookup_cons, beq_false_of_ne hq, ih, hq]
    · by_cases hq : q = a
      · subst hq
        simp [List.lookup_cons, hk, ih]
      · simp [List.lookup_cons, beq_false_of_ne hq, ih, hk, hq]

/-- Lookup distributes over an appended singleton entry. -/
theorem lookup_append_single (cache : List (String × List Record))
    (k : String) (v : List Record) (q : String) :
    (cache ++ [(k, v)]).lookup q
      = ((cache.lookup q).orElse (fun _ => if q = k then some v else none)) := by
  induction cache with
  | nil =>
    by_cases hq : q = k
    · simp [List.lookup, hq]
    · simp [List.lookup, beq_false_of_ne hq, hq]
  | cons e rest ih =>
    by_cases hq : q = e.1
    · simp [List.lookup, hq]
    · simp [List.lookup, beq_false_of_ne hq, ih]

/-- The list held for `q` after one `cache_append`. -/
theorem lookupD_cache_append (cache : List (String × List Record))
    (k : String) (r : Record) (q : String) :
    ((cache_append cache k r).lookup q).getD []
      = if q = k then ((cache.lookup q).getD []) ++ [r]
        else (cache.lookup q).getD [] := by
  rw [cache_append]
  by_cases hs : (cache.lookup k).isSome
  · rw [if_pos hs, lookup_map_update]
    by_cases hq : q = k
    · subst hq
      cases h : cache.lookup q with
      | none => rw [h] at hs; cases hs
      | some v => simp
    · cases h : cache.lookup q <;> simp [hq]
  · rw [if_neg hs, lookup_append_single]
    by_cases hq : q = k
    · subst hq
      cases h : cache.lookup q with
      | none => simp
      | some v => rw [h] at hs; simp at hs
    · cases h : cache.lookup q <;> simp [hq]

/-- The list held for `q` after folding a record stream into the cache. -/
theorem lookupD_records_fold (recs : List (String × Record))
    (cache : List (String × List Record)) (q : String) :
    (((recs.foldl (fun c kr => cache_append c kr.1 kr.2) cache)).lookup q).getD []
      = (cache.lookup q).getD []
        ++ recs.filterMap (fun kr => if kr.1 = q then some kr.2 else none) := by
  induction recs generalizing cache with
  | nil => simp
  | cons kr rest ih =>
    rw [List.foldl_cons, ih, List.filterMap_cons, lookupD_cache_append]
    by_cases hq : q = kr.1
    · rw [if_pos hq, if_pos hq.symm]
      simp
    · rw [if_neg hq, if_neg (fun h => hq h.symm)]

/-- C9: the auxiliary index is one shared map over all linked files: the
records looked up for a key are exactly the concatenation, in file
selection order, of each file's records (in row order) whose trimmed
PARENT_KEY value equals the trimmed key. -/
theorem aux_index_merges_all_files (files : List Grid) (key_value : String) :
    get_additional_data_for_key (preload_additional_data files) key_value
      = (files.map (fun df => (file_records df).filterMap (fun kr =>
          if kr.1 = pyStrip key_value then some kr.2 else none))).flatten := by
  rw [get_additional_data_for_key, preload_additional_data]
  suffices h : ∀ (cache : List (String × List Record)),
      ((files.foldl (fun cache df =>
          (file_records df).foldl (fun c kr => cache_append c kr.1 kr.2) cache)
        cache).lookup (pyStrip key_value)).getD []
      = (cache.lookup (pyStrip key_value)).getD []
        ++ (files.map (fun df => (file_records df).filterMap (fun kr =>
            if kr.1 = pyStrip key_value then some kr.2 else none))).flatten by
    simpa using h []
  induction files with
  | nil => intro cache; simp
  | cons df rest ih =>
    intro cache
    rw [List.foldl_cons, ih, lookupD_records_fold]
    simp

/-- The `try/except` wrapper of `process_single_document`: the body either
returns the saved output path or raises; an exception is caught and
returned as the error component of the job's result pair. -/
def process_single_document_outcome (body : Except String String) :
    Option String × Option String :=
  match body with
  | .ok path => (some path, none)
  | .error e => (none, some e)

/-- The collection loop keeps exactly the non-`None` results, in order. -/
theorem collect_generated_files_eq_filterMap
    (results : List (Option String × Option String)) :
    collect_generated_files results = results.filterMap (fun r => r.1) := by
  suffices h : ∀ (acc : List String),
      results.foldl (fun gen r =>
        match r.1 with
        | some f => gen ++ [f]
        | none => gen) acc = acc ++ results.filterMap (fun r => r.1) by
    simpa [collect_generated_files] using h []
  induction results with
  | nil => intro acc; simp
  | cons r rest ih =>
    intro acc
    cases hr : r.1 with
    | none => simp [List.filterMap_cons, hr, ih]
    | some f => simp [List.filterMap_cons, hr, ih]

/-- The removal loop keeps exactly the first `header_rows` rows. -/
theorem remove_trailing_rows_eq_take (header_rows : Nat) :
    ∀ (n : Nat) (rows : List α), rows.length ≤ n →
      remove_trailing_rows header_rows rows = rows.take header_rows := by
  intro n
  induction n with
  | zero =>
    intro rows h
    have : rows = [] := List.eq_nil_of_length_eq_zero (Nat.le_zero.mp h)
    subst this
    rw [remove_trailing_rows]
    simp
  | succ n ih =>
    intro rows h
    rw [remove_trailing_rows]
    by_cases hlt : header_rows < rows.length
    · rw [if_pos hlt, ih rows.dropLast (by simp [List.length_dropLast]; omega)]
      rw [List.dropLast_eq_take, List.take_take]
      congr 1
      omega
    · rw [if_neg hlt]
      exact (List.take_of_length_le (by omega)).symm

/-- The removal loop, rewritten without the length bound argument. -/
theorem remove_trailing_rows_take (header_rows : Nat) (rows : List α) :
    remove_trailing_rows header_rows rows = rows.take header_rows :=
  remove_trailing_rows_eq_take header_rows rows.length rows le_rfl

end AutoConverter

namespace AutoConverter

/-- C1: the claim expects input `"A, B, Others, specify"` with companion
`"X"` to yield the three items `"A"`, `"B"`, `"Others, specify: X"` and the
rank string `"1\n2\n3"`.  The code splits the multiselect string on commas,
so the single option label `"Others, specify"` arrives as the two tokens
`"Others"` and `"specify"`, and each of them is merged with the companion
value: the produced list has four items with `"Others, specify: X"`
duplicated, and the rank string is `"1\n2\n3\n4"`. -/
theorem ranking_duplicates_others_specify :
    pyGet (process_bus_info_needs_ranking
        [("bus_info_needs", "A, B, Others, specify"), ("bus_info_needs_o", "X")])
        "bus_info_needs"
      = "A\nB\nOthers, specify: X\nOthers, specify: X"
    ∧ pyGet (process_bus_info_needs_ranking
        [("bus_info_needs", "A, B, Others, specify"), ("bus_info_needs_o", "X")])
        "bus_info_needs_rank"
      = "1\n2\n3\n4" := by
  constructor <;> rfl

/-- The mapping entry of a scanned placeholder is its first-match column. -/
theorem lookup_find_column_mapping (ncols : Nat) (df : Grid)
    (phs : List String) (p : String) (hp : p ∈ phs) :
    (find_column_mapping ncols df phs).lookup p
      = find_placeholder_column ncols df p := by
  induction phs with
  | nil => cases hp
  | cons q rest ih =>
    simp only [find_column_mapping, List.filterMap_cons]
    by_cases hpq : p = q
    · subst hpq
      cases hfp : find_placeholder_column ncols df p with
      | some c => simp [List.lookup]
      | none =>
        by_cases hr : p ∈ rest
        · exact (ih hr).trans hfp
        · exact lookup_find_column_mapping_not_mem ncols df rest p hr
    · have hbeq : (p == q) = false := beq_false_of_ne hpq
      have hr : p ∈ rest := by
        cases hp with
        | head => exact absurd rfl hpq
        | tail _ h => exact h
      cases hfp : find_placeholder_column ncols df q with
      | none => exact ih hr
      | some c => simpa [List.lookup, hbeq] using ih hr

/-- C4: for every placeholder of the placeholder set, the column mapping
binds it to the column of the first cell, scanning rows 0..3 top-to-bottom
and columns left-to-right within a row, whose trimmed text equals the
placeholder case-insensitively; a placeholder with no matching cell in the
first four rows is omitted from the mapping (`lookup` is `none`). -/
theorem find_column_mapping_row_major (ncols : Nat) (df : Grid)
    (placeholders : List String) (p : String) (hp : p ∈ placeholders) :
    (find_column_mapping ncols df placeholders).lookup p
      = first_match_row_major ncols df p := by
  rw [lookup_find_column_mapping ncols df placeholders p hp]
  exact findSome?_eq_find_row_major
    (fun r c => cell_matches (cellAt df r c) p)
    (List.range (min 4 df.length)) (List.range ncols)

/-- Witness for C4 at a concrete dataset: the placeholder `"name"` matches
the trimmed, lower-cased cell `" Name "` of row 0, column 0. -/
theorem find_column_mapping_row_major_witness :
    (find_column_mapping 2
        [[some " Name ", some "resp_age"], [none, none], [none, none],
          [some "KEY", none]] ["name"]).lookup "name"
      = first_match_row_major 2
          [[some " Name ", some "resp_age"], [none, none], [none, none],
            [some "KEY", none]] "name" :=
  find_column_mapping_row_major 2
    [[some " Name ", some "resp_age"], [none, none], [none, none],
      [some "KEY", none]] ["name"] "name" (by decide)

/-- C3: for a table holding at least its fixed header rows (two for the
household-member roster, one for the savings roster), population keeps
exactly the header rows, drops every prior data row, and appends one row
per auxiliary record, so exactly `m` data rows remain. -/
theorem populate_tables_replace_all_data_rows (ncols : Nat)
    (hmTable svTable : List (List String))
    (hmRecs svRecs : List (List (String × String)))
    (hhm : 2 ≤ hmTable.length) (hsv : 1 ≤ svTable.length) :
    populate_hh_member_table ncols hmTable hmRecs
      = hmTable.take 2 ++ (hmRecs.enumFrom 1).map (fun p => hh_member_row ncols p.1 p.2)
    ∧ (populate_hh_member_table ncols hmTable hmRecs).length = 2 + hmRecs.length
    ∧ populate_savings_table ncols svTable svRecs
      = svTable.take 1 ++ (svRecs.enumFrom 1).map (fun p => savings_row ncols p.1 p.2)
    ∧ (populate_savings_table ncols svTable svRecs).length = 1 + svRecs.length := by
  have e1 : populate_hh_member_table ncols hmTable hmRecs
      = hmTable.take 2 ++ (hmRecs.enumFrom 1).map (fun p => hh_member_row ncols p.1 p.2) := by
    rw [populate_hh_member_table, remove_trailing_rows_take]
  have e2 : populate_savings_table ncols svTable svRecs
      = svTable.take 1 ++ (svRecs.enumFrom 1).map (fun p => savings_row ncols p.1 p.2) := by
    rw [populate_savings_table, remove_trailing_rows_take]
  refine ⟨e1, ?_, e2, ?_⟩
  · rw [e1]
    simp [List.length_take]
    omega
  · rw [e2]
    simp [List.length_take]
    omega

/-- Witness for C3 at a concrete pair of tables: a household-member table
with two header rows and two stale data rows and one record, and a savings
table with one header row and one stale data row and two records. -/
theorem populate_tables_replace_all_data_rows_witness :
    populate_hh_member_table 10 [["h1"], ["h2"], ["stale1"], ["stale2"]]
        [[("hhcomp_hhmmbr_fname", "Ana")]]
      = [["h1"], ["h2"]].take 2
        ++ ([[("hhcomp_hhmmbr_fname", "Ana")]].enumFrom 1).map
            (fun p => hh_member_row 10 p.1 p.2)
      ∨ (populate_hh_member_table 10 [["h1"], ["h2"], ["stale1"], ["stale2"]]
          [[("hhcomp_hhmmbr_fname", "Ana")]]).length = 2 + 1 :=
  Or.inr (populate_tables_replace_all_data_rows 10
    [["h1"], ["h2"], ["stale1"], ["stale2"]] [["s1"]]
    [[("hhcomp_hhmmbr_fname", "Ana")]] [[], []]
    (by decide) (by decide)).2.1

/-- C2: after the final sweep, no paragraph of the document — at any table
nesting depth — contains a `\x7b...\x7d` token (opening brace, non-empty
brace-free name, closing brace), so no unresolved placeholder reaches the
saved output text. -/
theorem clear_all_no_placeholder_tokens (d : Doc) (s : List Char)
    (hs : s ∈ docParaTexts (clear_all_remaining_placeholders d)) :
    ¬ HasToken s := by
  intro h
  have h1 : containsToken s = true := containsToken_of_hasToken s h
  have h2 : containsToken s = false := by
    rw [docParaTexts, clear_all_remaining_placeholders] at hs
    rcases List.mem_append.mp hs with h' | h'
    · obtain ⟨t, _, rfl⟩ := List.mem_map.mp h'
      exact containsToken_clearText t
    · exact clearTables_no_token d.tables s h'
  rw [h1] at h2
  cases h2

/-- Witness for C2: a document with one top-level paragraph holding two
placeholder tokens and a nested table whose cell paragraph holds another;
each swept paragraph is token-free. -/
theorem clear_all_no_placeholder_tokens_witness :
    ¬ HasToken (clearText (chars "Dear \x7bname\x7d (\x7bmissing one\x7d)")) :=
  clear_all_no_placeholder_tokens
    ⟨[chars "Dear \x7bname\x7d (\x7bmissing one\x7d)"],
      Tables.cons
        (Table.mk (Rows.cons
          (Cells.cons (Cell.mk [chars "cell \x7btoken\x7d"] Tables.nil) Cells.nil)
          Rows.nil))
        Tables.nil⟩
    (clearText (chars "Dear \x7bname\x7d (\x7bmissing one\x7d)"))
    (by
      simp [docParaTexts, clear_all_remaining_placeholders, clearTables,
        clearTable, clearRows, clearCells, clearCell, tablesParaTexts,
        tableParaTexts, rowsParaTexts, cellsParaTexts, cellParaTexts])

/-- C5 counterexample: a batch of two data rows where the second row's job
fails.  One document is generated, yet the success message the worker shows
is the one built from the total row count 2 — not the message built from
the succeeded count 1 that the claim requires. -/
theorem conversion_message_not_succeeded_count :
    (conversion_worker_model
        [[some "name"], [none], [none], [some "KEY"], [some "k1"], [some "k2"]]
        1 ["name"]
        (fun p => if p.1 = 0 then (some "a.docx", none) else (none, some "boom"))
        "out.zip").generatedFiles.length = 1
    ∧ (conversion_worker_model
        [[some "name"], [none], [none], [some "KEY"], [some "k1"], [some "k2"]]
        1 ["name"]
        (fun p => if p.1 = 0 then (some "a.docx", none) else (none, some "boom"))
        "out.zip").successMessage = some (success_message 2 "out.zip")
    ∧ (conversion_worker_model
        [[some "name"], [none], [none], [some "KEY"], [some "k1"], [some "k2"]]
        1 ["name"]
        (fun p => if p.1 = 0 then (some "a.docx", none) else (none, some "boom"))
        "out.zip").successMessage
      ≠ some (success_message 1 "out.zip") := by
  refine ⟨by decide, by decide, by decide⟩

/-- C5 amended: when a batch finishes, the success message reports the
total number of data rows — independent of how many rows failed — and the
archive contains exactly the successfully generated documents. -/
theorem conversion_reports_total_and_archives_successes (df : Grid)
    (ncols : Nat) (placeholders : List String)
    (render : Nat × List (Option String) → Option String × Option String)
    (zip_path : String)
    (hrun : (conversion_worker_model df ncols placeholders render zip_path).errorMsg
      = none) :
    (conversion_worker_model df ncols placeholders render zip_path).archiveEntries
      = ((df.drop 4).enum.map render).filterMap (fun r => r.1)
    ∧ (conversion_worker_model df ncols placeholders render zip_path).successMessage
      = some (success_message (df.drop 4).length zip_path) := by
  by_cases h1 : placeholders = []
  · simp [conversion_worker_model, h1] at hrun
  · by_cases h2 : find_column_mapping ncols df placeholders = []
    · simp [conversion_worker_model, h1, h2] at hrun
    · cases hk : find_key_column df with
      | none => simp [conversion_worker_model, h1, h2, hk] at hrun
      | some kc =>
        by_cases h4 : df.drop 4 = []
        · simp [conversion_worker_model, h1, h2, hk, h4] at hrun
        · constructor
          · simp [conversion_worker_model, h1, h2, hk, h4,
              collect_generated_files_eq_filterMap]
          · simp [conversion_worker_model, h1, h2, hk, h4]

/-- Witness for C5's amended theorem at the counterexample's concrete run:
the hypothesis (the run did not abort) is discharged by evaluation. -/
theorem conversion_reports_total_witness :
    (conversion_worker_model
        [[some "name"], [none], [none], [some "KEY"], [some "k1"], [some "k2"]]
        1 ["name"]
        (fun p => if p.1 = 1 then (none, some "boom") else (some "a.docx", none))
        "out.zip").archiveEntries
      = ((([[some "name"], [none], [none], [some "KEY"], [some "k1"],
            [some "k2"]] : Grid).drop 4).enum.map
          (fun p => if p.1 = 1 then (none, some "boom") else (some "a.docx", none))).filterMap
          (fun r => r.1)
    ∧ (conversion_worker_model
        [[some "name"], [none], [none], [some "KEY"], [some "k1"], [some "k2"]]
        1 ["name"]
        (fun p => if p.1 = 1 then (none, some "boom") else (some "a.docx", none))
        "out.zip").successMessage
      = some (success_message
          (([[some "name"], [none], [none], [some "KEY"], [some "k1"],
            [some "k2"]] : Grid).drop 4).length "out.zip") :=
  conversion_reports_total_and_archives_successes
    [[some "name"], [none], [none], [some "KEY"], [some "k1"], [some "k2"]]
    1 ["name"]
    (fun p => if p.1 = 1 then (none, some "boom") else (some "a.docx", none))
    "out.zip" (by decide)

/-- C6: each configuration error — empty placeholder set, empty column
mapping, missing KEY marker in row 3, or no data rows from row 4 on —
makes the worker abort with a message, with no temp directory created, no
row rendered, no file generated and no archive entry written. -/
theorem config_errors_abort (df : Grid) (ncols : Nat)
    (placeholders : List String)
    (render : Nat × List (Option String) → Option String × Option String)
    (zip_path : String)
    (h : placeholders = [] ∨ find_column_mapping ncols df placeholders = []
      ∨ find_key_column df = none ∨ df.drop 4 = []) :
    ∃ msg, conversion_worker_model df ncols placeholders render zip_path
      = ⟨some msg, false, [], [], [], none⟩ := by
  rw [conversion_worker_model]
  by_cases h1 : placeholders = []
  · exact ⟨_, by rw [if_pos h1]⟩
  · rw [if_neg h1]
    by_cases h2 : find_column_mapping ncols df placeholders = []
    · exact ⟨_, by rw [if_pos h2]⟩
    · rw [if_neg h2]
      cases hk : find_key_column df with
      | none => exact ⟨_, rfl⟩
      | some kc =>
        by_cases h4 : df.drop 4 = []
        · exact ⟨_, by rw [if_pos h4]⟩
        · rcases h with h | h | h | h
          · exact absurd h h1
          · exact absurd h h2
          · rw [hk] at h; cases h
          · exact absurd h h4

/-- Witness for C6: a template with no placeholders aborts a run over an
empty dataset with no output produced. -/
theorem config_errors_abort_witness :
    ∃ msg, conversion_worker_model [] 0 [] (fun _ => (none, none)) "out.zip"
      = ⟨some msg, false, [], [], [], none⟩ :=
  config_errors_abort [] 0 [] (fun _ => (none, none)) "out.zip" (Or.inl rfl)

/-- C7: an exception in a row's render body is caught inside
`process_single_document` and returned as the job's error value; the
failed job contributes nothing to the collected file list, and the files
collected for packaging around a failed job are exactly those of its
succeeding siblings, in order. -/
theorem row_errors_isolated (pre post : List (Except String String))
    (e : String) :
    process_single_document_outcome (.error e) = (none, some e)
    ∧ collect_generated_files
        ((pre ++ .error e :: post).map process_single_document_outcome)
      = collect_generated_files (pre.map process_single_document_outcome)
        ++ collect_generated_files (post.map process_single_document_outcome) := by
  refine ⟨rfl, ?_⟩
  simp only [collect_generated_files_eq_filterMap, List.map_append,
    List.filterMap_append, List.map_cons, List.filterMap_cons]
  rfl

/-- C8: when the `\x7bresp_pix\x7d` token is in the paragraph, an image
folder is configured, and the row's image value is usable, the lookup
tries the value verbatim and then, with any existing extension stripped,
each extension in the order `.png, .jpg, .jpeg, .gif, .bmp, .tiff, .webp`;
the first name that exists on disk is used, and when none exists the
paragraph falls back to plain text substitution. -/
theorem image_lookup_first_existing_candidate (folder_configured : Bool)
    (exists_on_disk : String → Bool) (data_row : List (String × String))
    (original_text : String)
    (h1 : folder_configured = true)
    (h2 : pyHasKey data_row "resp_pix" = true)
    (h3 : pyIn "\x7bresp_pix\x7d" original_text = true)
    (h4 : pyStrip (pyGet data_row "resp_pix") ≠ "")
    (h5 : pyLower (pyStrip (pyGet data_row "resp_pix")) ≠ "nan") :
    candidate_filenames (pyStrip (pyGet data_row "resp_pix"))
      = pyStrip (pyGet data_row "resp_pix")
        :: image_extensions.map (fun ext =>
            splitext_base (pyStrip (pyGet data_row "resp_pix")) ++ ext)
    ∧ handle_paragraph folder_configured exists_on_disk data_row original_text
      = (match (candidate_filenames (pyStrip (pyGet data_row "resp_pix"))).find?
            exists_on_disk with
        | some f => ParaOutcome.image f
        | none => ParaOutcome.text (substitute_all data_row original_text)) := by
  constructor
  · simp [candidate_filenames, image_extensions]
  · rw [handle_paragraph, if_pos (by rw [h1, h2, h3]; rfl), if_pos ⟨h4, h5⟩,
      try_image_candidates_eq_find?]

/-- Witness for C8: a row whose image value is `"photo.jpg"` while only
`"photo.png"` exists on disk; the verbatim name misses, the `.png`
candidate hits. -/
theorem image_lookup_first_existing_candidate_witness :
    candidate_filenames (pyStrip (pyGet [("resp_pix", "photo.jpg")] "resp_pix"))
      = pyStrip (pyGet [("resp_pix", "photo.jpg")] "resp_pix")
        :: image_extensions.map (fun ext =>
            splitext_base (pyStrip (pyGet [("resp_pix", "photo.jpg")] "resp_pix")) ++ ext)
    ∧ handle_paragraph true (fun s => s == "photo.png")
        [("resp_pix", "photo.jpg")] "Pic: \x7bresp_pix\x7d"
      = (match (candidate_filenames
            (pyStrip (pyGet [("resp_pix", "photo.jpg")] "resp_pix"))).find?
            (fun s => s == "photo.png") with
        | some f => ParaOutcome.image f
        | none => ParaOutcome.text
            (substitute_all [("resp_pix", "photo.jpg")] "Pic: \x7bresp_pix\x7d")) :=
  image_lookup_first_existing_candidate true (fun s => s == "photo.png")
    [("resp_pix", "photo.jpg")] "Pic: \x7bresp_pix\x7d"
    rfl (by decide) (by decide) (by decide) (by decide)

/-- C10: when the multiselect field is missing, empty, `'NA'` or `'nan'`
(after trimming, case-insensitively), `populate_bus_info_needs_table`
returns before touching the table, so every row the template table already
had stays in place. -/
theorem populate_bus_info_needs_table_unchanged (ncols : Nat)
    (table : List (List String)) (data_row : List (String × String))
    (h : pyStrip (pyGet data_row "bus_info_needs") = ""
      ∨ pyLower (pyStrip (pyGet data_row "bus_info_needs")) ∈ ["nan", "na"]) :
    populate_bus_info_needs_table ncols table data_row = table := by
  have hcond : pyStrip (pyGet data_row "bus_info_needs") = ""
      ∨ pyLower (pyStrip (pyGet data_row "bus_info_needs")) ∈ ["nan", "na", ""] := by
    rcases h with h | h
    · exact Or.inl h
    · refine Or.inr ?_
      simp only [List.mem_cons, List.not_mem_nil, or_false] at h
      simp only [List.mem_cons]
      tauto
  have hrank : process_bus_info_needs_ranking data_row = ranking_empty_result := by
    rw [process_bus_info_needs_ranking, if_pos hcond]
  rw [populate_bus_info_needs_table]
  simp only [hrank]
  rfl

/-- Witness for C10: a table with two header rows and one stale data row is
returned unchanged for a row whose multiselect value is `'NA'`. -/
theorem populate_bus_info_needs_table_unchanged_witness :
    populate_bus_info_needs_table 3 [["q"], ["rank"], ["stale"]]
        [("bus_info_needs", "NA")]
      = [["q"], ["rank"], ["stale"]] :=
  populate_bus_info_needs_table_unchanged 3 [["q"], ["rank"], ["stale"]]
    [("bus_info_needs", "NA")] (Or.inr (by decide))

end AutoConverter
